import Mathlib

/-!
Verification development for the PDF-Processing-Language repository
(`parser_pdfl_v2.py`): a shallow embedding of the pipeline parser, the
pipeline validator, the execution engine with its resource cleanup, and the
two embedded mini-languages (page-set expressions and per-page condition
expressions), together with theorems settling the frozen specification
claims.

Conventions of the embedding:
* Python exceptions are modelled with `Except PErr`; each distinct `raise`
  site of the source is mapped to a `PErr` constructor carrying the exact
  message string raised there.
* Python machine-independent `int` is modelled as `Int`; Python `float`
  values produced by the mini-language are modelled exactly as fractions
  (numerator/denominator), adequate for every input appearing in a theorem.
* Filesystem state (temp directories/files) is modelled as lists of
  abstract identifiers.
-/

namespace PDFL

/-- Does the character list `hay` start with `needle`? (model of Python
`str.startswith` on explicit lists, used to build substring search). -/
def startsWithSeq (hay needle : List Char) : Bool :=
  match needle, hay with
  | [], _ => true
  | _ :: _, [] => false
  | d :: ds, c :: cs => c = d && startsWithSeq cs ds

/-- Does `hay` contain `needle` as a contiguous subsequence? -/
def hasInfixSeq : List Char → List Char → Bool
  | [], needle => needle.isEmpty
  | hay@(_ :: rest), needle => startsWithSeq hay needle || hasInfixSeq rest needle

/-- Model of the Python `in` operator on strings: substring containment. -/
def containsSub (s sub : String) : Bool :=
  hasInfixSeq s.data sub.data

/-- Split a character list at every separator character (empty pieces
kept, as in Python `re.split` and `str.split` with an explicit
separator); `acc` holds the current piece reversed. -/
def splitByAux (p : Char → Bool) : List Char → List Char → List (List Char)
  | [], acc => [acc.reverse]
  | c :: cs, acc =>
    if p c then acc.reverse :: splitByAux p cs []
    else splitByAux p cs (c :: acc)

/-- Split a character list at every non-overlapping occurrence of the
(nonempty) separator sequence, scanning left to right — the semantics of
Python `str.split(sep)`.  Fuel is one unit per character. -/
def splitSeqAux (sep : List Char) : Nat → List Char → List Char → List (List Char)
  | 0, l, acc => [acc.reverse ++ l]
  | fuel + 1, l, acc =>
    if startsWithSeq l sep && !sep.isEmpty then
      acc.reverse :: splitSeqAux sep fuel (l.drop sep.length) []
    else
      match l with
      | [] => [acc.reverse]
      | c :: cs => splitSeqAux sep fuel cs (c :: acc)

/-- Model of Python `s.split(sep)` for a nonempty separator. -/
def splitOnStr (s sep : String) : List String :=
  (splitSeqAux sep.data (s.data.length + 1) s.data []).map String.mk

/-- Model of Python `s.strip()`. -/
def myTrim (s : String) : String :=
  String.mk ((s.data.dropWhile Char.isWhitespace).reverse.dropWhile
    Char.isWhitespace).reverse

/-- Model of Python `s.lower()` (ASCII inputs only are relevant here). -/
def myToLower (s : String) : String :=
  String.mk (s.data.map Char.toLower)

/-- Replace every non-overlapping occurrence of `pat` (nonempty) by
`repl`, scanning left to right — the semantics of Python
`str.replace`.  Fuel is one unit per character. -/
def replaceSeqAux (pat repl : List Char) : Nat → List Char → List Char
  | 0, l => l
  | fuel + 1, l =>
    if startsWithSeq l pat && !pat.isEmpty then
      repl ++ replaceSeqAux pat repl fuel (l.drop pat.length)
    else
      match l with
      | [] => []
      | c :: cs => c :: replaceSeqAux pat repl fuel cs

/-- Model of Python `s.replace(pat, repl)` for a nonempty pattern. -/
def pyReplace (s pat repl : String) : String :=
  String.mk (replaceSeqAux pat.data repl.data (s.data.length + 1) s.data)

/-- Separator predicate of `re.split(r'[,\s]+', ...)` in
`SelectCommand._parse_pages_string`: a comma or whitespace. -/
def isSepChar (c : Char) : Bool :=
  c = ',' || c.isWhitespace

/-- Model of `re.split(r'[,\s]+', pages_str.strip())` followed by the
source's filtering of empty parts (`[p for p in parts if p]`) — with the
empty parts filtered, splitting on single separators is equivalent to
splitting on separator runs, and the preceding strip is redundant. -/
def splitTokens (s : String) : List String :=
  ((splitByAux isSepChar s.data []).map String.mk).filter (fun p => p ≠ "")

/-- Numeric value of a digit list, most significant first. -/
def digitsVal : List Char → Nat
  | [] => 0
  | c :: cs => digitsVal cs + c.toNat.sub 48 * 10 ^ cs.length

/-- Is the list a nonempty run of decimal digits? -/
def allDigits (l : List Char) : Bool :=
  !l.isEmpty && l.all Char.isDigit

/-- Errors of the embedded interpreter.  Each constructor corresponds to a
`raise` site (or exception kind) of the source; the `String` argument is the
message the source raises there.  The specification's taxonomy maps
`parseError` (invalid stage format) and `paramSyntaxError` (invalid
parameter format) to ParseError, `unknownCommand` to UnknownCommandError,
`structureError` to PipelineStructureError, `stateError` to StateError and
`valueError` to the remaining dynamic `ValueError`s / built-in exceptions. -/
inductive PErr where
  | parseError (msg : String)
  | paramSyntaxError (msg : String)
  | unknownCommand (msg : String)
  | structureError (msg : String)
  | stateError (msg : String)
  | valueError (msg : String)
  deriving Repr, DecidableEq

instance {ε α : Type} [DecidableEq ε] [DecidableEq α] :
    DecidableEq (Except ε α) := fun a b =>
  match a, b with
  | .ok x, .ok y =>
    if h : x = y then isTrue (by rw [h])
    else isFalse (by intro hh; cases hh; exact h rfl)
  | .ok _, .error _ => isFalse (by intro hh; cases hh)
  | .error _, .ok _ => isFalse (by intro hh; cases hh)
  | .error e, .error f =>
    if h : e = f then isTrue (by rw [h])
    else isFalse (by intro hh; cases hh; exact h rfl)

/-- Model of Python `int(s)`: optional sign followed by a nonempty digit
run (digit-grouping underscores are not used by any input considered).
A non-numeric string raises `ValueError`, modelled as `Except.error`. -/
def pyInt (s : String) : Except PErr Int :=
  if s.data.head? = some '-' then
    if allDigits s.data.tail then .ok (-(digitsVal s.data.tail : Int))
    else .error (.valueError "invalid literal for int()")
  else if s.data.head? = some '+' then
    if allDigits s.data.tail then .ok (digitsVal s.data.tail : Int)
    else .error (.valueError "invalid literal for int()")
  else
    if allDigits s.data then .ok (digitsVal s.data : Int)
    else .error (.valueError "invalid literal for int()")

/-- Model of Python `range(lo, hi)` as a list of integers. -/
def pyRange (lo hi : Int) : List Int :=
  (List.range (hi - lo).toNat).map (fun k => lo + (k : Int))

/-- Insert `x` into a strictly sorted list, keeping it strictly sorted
(duplicates dropped). -/
def insertSorted (x : Int) : List Int → List Int
  | [] => [x]
  | y :: ys =>
    if x < y then x :: y :: ys
    else if x = y then y :: ys
    else y :: insertSorted x ys

/-- Model of Python `sorted(list(set(l)))`: ascending order, duplicates
removed. -/
def sortDedup (l : List Int) : List Int :=
  l.foldr insertSorted []

/-- The `start, end = map(int, part.split('..')); pages.extend(range(start - 1, end))`
step of the range branch, on the pieces produced by the split: anything
but exactly two integer-parsable pieces raises. -/
def rangeContribution : List String → Except PErr (List Int)
  | [a, b] => do
    let sa ← pyInt a
    let sb ← pyInt b
    .ok (pyRange (sa - 1) sb)
  | _ => .error (.valueError "unpacking mismatch")

/-- One iteration of the token loop of `SelectCommand._parse_pages_string`
(source lines 358-365): a range token `a..b` contributes
`range(a-1, b)`, the token `$total` contributes `total_pages - 1`, and any
other token is parsed as an integer `n` contributing `n - 1`. -/
def perToken (totalPages : Int) (part : String) : Except PErr (List Int) :=
  if containsSub part ".." then
    rangeContribution (splitOnStr part "..")
  else if part = "$total" then
    .ok [totalPages - 1]
  else do
    let n ← pyInt part
    .ok [n - 1]

/-- Sequential accumulation of the per-token page contributions, stopping
at the first failing token (the loop body raises out of
`_parse_pages_string`). -/
def collectPages (totalPages : Int) : List String → Except PErr (List Int)
  | [] => .ok []
  | t :: rest => do
    let l ← perToken totalPages t
    let ls ← collectPages totalPages rest
    .ok (l ++ ls)

/-- Embedding of `SelectCommand._parse_pages_string` (source lines
352-367): split the page-set string on commas/whitespace, accumulate each
token's contribution, and return `sorted(list(set(pages)))`. -/
def parse_pages_string (pagesStr : String) (totalPages : Int) :
    Except PErr (List Int) :=
  (collectPages totalPages (splitTokens pagesStr)).map sortDedup

/-! ### Model of CPython `eval` on the allow-listed character set

`SelectCommand._evaluate_condition` (source lines 369-383) feeds each
substituted condition string to the Python builtin `eval`, guarded by
`_is_safe_expression`, which only admits the characters
`0123456789+-*/%() ==!=<>&|`.  The definitions below model CPython's
expression evaluator restricted to that alphabet: integer literals (a
nonzero literal with a leading zero is a syntax error), the binary
operators `+ - * / // % ** << >> & |`, unary `+ -`, parentheses, and
chained comparisons, with CPython's precedence.  `&&` and `||` are not
Python operators and fail to parse.  Numbers are modelled as exact
fractions (`num/den` with a flag recording int-ness); true division yields
a float, modelled by its exact value — faithful for every input that
appears in a theorem below.  Comparison chains are evaluated without
short-circuiting and non-integral exponents are outside the modelled
fragment (no theorem input uses either).  Any failure (syntax error,
division by zero, a bitwise/shift operator on a float) is `none`,
modelling a raised exception. -/

/-- A CPython numeric value: the exact fraction `num/den` (with `den > 0`
maintained by construction) tagged with whether it is an `int` (`true`)
or a `float` (`false`); booleans are the ints 1 and 0. -/
structure PyVal where
  num : Int
  den : Nat
  isInt : Bool
  deriving Repr, DecidableEq

/-- The Python int `n`. -/
def intVal (n : Int) : PyVal := ⟨n, 1, true⟩

/-- The Python bools `True` / `False` (the ints 1 / 0). -/
def boolVal (b : Bool) : PyVal := ⟨if b then 1 else 0, 1, true⟩

/-- Python truthiness of a number: nonzero. -/
def truthy (v : PyVal) : Bool := v.num ≠ 0

/-- Unary minus. -/
def pyNeg (v : PyVal) : PyVal := ⟨-v.num, v.den, v.isInt⟩

/-- Python `+`. -/
def pyAdd (a b : PyVal) : PyVal :=
  ⟨a.num * b.den + b.num * a.den, a.den * b.den, a.isInt && b.isInt⟩

/-- Python binary `-`. -/
def pySub (a b : PyVal) : PyVal :=
  ⟨a.num * b.den - b.num * a.den, a.den * b.den, a.isInt && b.isInt⟩

/-- Python `*`. -/
def pyMul (a b : PyVal) : PyVal :=
  ⟨a.num * b.num, a.den * b.den, a.isInt && b.isInt⟩

/-- Python `/`: true division, always a float; division by zero raises. -/
def pyTrueDiv (a b : PyVal) : Option PyVal :=
  if b.num = 0 then none
  else some ⟨if b.num < 0 then -(a.num * b.den) else a.num * b.den,
             a.den * b.num.natAbs, false⟩

/-- The integer `⌊a / b⌋` for `b ≠ 0` (Python's flooring convention). -/
def pyFloorQ (a b : PyVal) : Int :=
  let n := a.num * (b.den : Int)
  let d := a.den * b.num.natAbs
  Int.fdiv (if b.num < 0 then -n else n) (d : Int)

/-- Python `//`: floor division; by-zero raises. -/
def pyFloorDiv (a b : PyVal) : Option PyVal :=
  if b.num = 0 then none
  else some ⟨pyFloorQ a b, 1, a.isInt && b.isInt⟩

/-- Python `%`: `a - b * (a // b)` (sign follows the divisor); by-zero
raises. -/
def pyMod (a b : PyVal) : Option PyVal :=
  if b.num = 0 then none
  else
    let fl := pyFloorQ a b
    some ⟨a.num * b.den - b.num * fl * a.den, a.den * b.den,
          a.isInt && b.isInt⟩

/-- Python `**` restricted to exactly representable cases: an integral
exponent; `0` to a negative power raises; an int to a negative power is a
float. -/
def pyPow (a b : PyVal) : Option PyVal :=
  if b.den = 0 then none
  else if b.num % (b.den : Int) = 0 then
    let e : Int := b.num / (b.den : Int)
    if 0 ≤ e then
      some ⟨a.num ^ e.toNat, a.den ^ e.toNat, a.isInt && b.isInt⟩
    else if a.num = 0 then none
    else
      let m := (-e).toNat
      some ⟨if a.num < 0 && m % 2 = 1 then -((a.den : Int) ^ m)
            else (a.den : Int) ^ m,
            a.num.natAbs ^ m, false⟩
  else none

/-- Bitwise op on `Nat` by binary recursion on explicit fuel (one bit per
step); fuel `a + b + 1` covers every bit of both arguments. -/
def natBitOp (f : Bool → Bool → Bool) : Nat → Nat → Nat → Nat
  | 0, _, _ => 0
  | fuel + 1, a, b =>
    (if f (a % 2 = 1) (b % 2 = 1) then 1 else 0) + 2 * natBitOp f fuel (a / 2) (b / 2)

/-- Bitwise and on `Nat`. -/
def natAnd (a b : Nat) : Nat := natBitOp (fun x y => x && y) (a + b + 1) a b

/-- Bitwise or on `Nat`. -/
def natOr (a b : Nat) : Nat := natBitOp (fun x y => x || y) (a + b + 1) a b

/-- Two's-complement bitwise and on `Int` (Python `&` on ints). -/
def intAnd (a b : Int) : Int :=
  if 0 ≤ a then
    if 0 ≤ b then (natAnd a.toNat b.toNat : Nat)
    else ((a.toNat - natAnd a.toNat (-b - 1).toNat : Nat) : Int)
  else
    if 0 ≤ b then ((b.toNat - natAnd b.toNat (-a - 1).toNat : Nat) : Int)
    else -((natOr (-a - 1).toNat (-b - 1).toNat : Nat) + 1)

/-- Two's-complement bitwise or on `Int` (Python `|` on ints). -/
def intOr (a b : Int) : Int :=
  if 0 ≤ a then
    if 0 ≤ b then (natOr a.toNat b.toNat : Nat)
    else -(((-b - 1).toNat - natAnd (-b - 1).toNat a.toNat : Nat) + 1)
  else
    if 0 ≤ b then -(((-a - 1).toNat - natAnd (-a - 1).toNat b.toNat : Nat) + 1)
    else -((natAnd (-a - 1).toNat (-b - 1).toNat : Nat) + 1)

/-- Python `<<`: ints only, nonnegative shift count. -/
def pyShl (a b : PyVal) : Option PyVal :=
  if a.isInt && b.isInt && a.den = 1 && b.den = 1 then
    if b.num < 0 then none
    else some ⟨a.num * (2 : Int) ^ b.num.toNat, 1, true⟩
  else none

/-- Python `>>`: ints only, nonnegative count, arithmetic (floor) shift. -/
def pyShr (a b : PyVal) : Option PyVal :=
  if a.isInt && b.isInt && a.den = 1 && b.den = 1 then
    if b.num < 0 then none
    else some ⟨Int.fdiv a.num ((2 : Int) ^ b.num.toNat), 1, true⟩
  else none

/-- Python `&`: ints only. -/
def pyBAnd (a b : PyVal) : Option PyVal :=
  if a.isInt && b.isInt && a.den = 1 && b.den = 1 then
    some ⟨intAnd a.num b.num, 1, true⟩
  else none

/-- Python `|`: ints only. -/
def pyBOr (a b : PyVal) : Option PyVal :=
  if a.isInt && b.isInt && a.den = 1 && b.den = 1 then
    some ⟨intOr a.num b.num, 1, true⟩
  else none

/-- Does the comparison operator `o` hold between numbers `a` and `b`?
Numbers compare by exact value (fractions cross-multiplied; denominators
are positive). -/
def cmpHolds (o : String) (a b : PyVal) : Bool :=
  let l := a.num * (b.den : Int)
  let r := b.num * (a.den : Int)
  if o = "==" then l = r
  else if o = "!=" then l ≠ r
  else if o = "<" then l < r
  else if o = ">" then r < l
  else if o = "<=" then l ≤ r
  else o = ">=" && r ≤ l

/-- Is `o` one of Python's comparison operators admitted by the character
allowlist? -/
def isCmpOp (o : String) : Bool :=
  o = "==" || o = "!=" || o = "<" || o = ">" || o = "<=" || o = ">="

/-- Apply a binary arithmetic/bitwise operator. -/
def applyBin (o : String) (a b : PyVal) : Option PyVal :=
  if o = "+" then some (pyAdd a b)
  else if o = "-" then some (pySub a b)
  else if o = "*" then some (pyMul a b)
  else if o = "/" then pyTrueDiv a b
  else if o = "//" then pyFloorDiv a b
  else if o = "%" then pyMod a b
  else if o = "<<" then pyShl a b
  else if o = ">>" then pyShr a b
  else if o = "&" then pyBAnd a b
  else if o = "|" then pyBOr a b
  else none

/-- Tokens of the modelled Python expression fragment. -/
inductive PyTok where
  | num (n : Nat)
  | op (s : String)
  | lparen
  | rparen
  deriving Repr, DecidableEq

/-- Tokenizer for the allow-listed fragment (fuel = remaining characters).
A nonzero integer literal with a leading zero is a CPython syntax error;
a stray `=` or `!` (outside `==` `!=`) cannot begin a valid token here
and makes the whole evaluation fail, as does any character outside the
alphabet. -/
def pyTokenizeAux : Nat → List Char → Option (List PyTok)
  | 0, _ => none
  | _, [] => some []
  | fuel + 1, c :: cs =>
    if c = ' ' then pyTokenizeAux fuel cs
    else if c.isDigit then
      let run := (c :: cs).takeWhile Char.isDigit
      let rest := (c :: cs).drop run.length
      if c = '0' && run.any (fun d => d ≠ '0') then none
      else do
        let ts ← pyTokenizeAux fuel rest
        some (.num (digitsVal run) :: ts)
    else
      match c, cs with
      | '*', '*' :: cs2 => do pure (.op "**" :: (← pyTokenizeAux fuel cs2))
      | '/', '/' :: cs2 => do pure (.op "//" :: (← pyTokenizeAux fuel cs2))
      | '<', '<' :: cs2 => do pure (.op "<<" :: (← pyTokenizeAux fuel cs2))
      | '>', '>' :: cs2 => do pure (.op ">>" :: (← pyTokenizeAux fuel cs2))
      | '<', '=' :: cs2 => do pure (.op "<=" :: (← pyTokenizeAux fuel cs2))
      | '>', '=' :: cs2 => do pure (.op ">=" :: (← pyTokenizeAux fuel cs2))
      | '=', '=' :: cs2 => do pure (.op "==" :: (← pyTokenizeAux fuel cs2))
      | '!', '=' :: cs2 => do pure (.op "!=" :: (← pyTokenizeAux fuel cs2))
      | '+', rest => do pure (.op "+" :: (← pyTokenizeAux fuel rest))
      | '-', rest => do pure (.op "-" :: (← pyTokenizeAux fuel rest))
      | '*', rest => do pure (.op "*" :: (← pyTokenizeAux fuel rest))
      | '/', rest => do pure (.op "/" :: (← pyTokenizeAux fuel rest))
      | '%', rest => do pure (.op "%" :: (← pyTokenizeAux fuel rest))
      | '<', rest => do pure (.op "<" :: (← pyTokenizeAux fuel rest))
      | '>', rest => do pure (.op ">" :: (← pyTokenizeAux fuel rest))
      | '&', rest => do pure (.op "&" :: (← pyTokenizeAux fuel rest))
      | '|', rest => do pure (.op "|" :: (← pyTokenizeAux fuel rest))
      | '(', rest => do pure (.lparen :: (← pyTokenizeAux fuel rest))
      | ')', rest => do pure (.rparen :: (← pyTokenizeAux fuel rest))
      | _, _ => none

/-- Tokenize a whole string. -/
def pyTokenize (s : String) : Option (List PyTok) :=
  pyTokenizeAux (s.data.length + 1) s.data

/-- The binary-operator precedence levels of the fragment, weakest
first: `|`, `&`, shifts, additive, multiplicative (CPython has `^`
between `|` and `&`, but `^` is not in the allowlist). -/
inductive BinL where
  | bor
  | band
  | shift
  | arith
  | term
  deriving Repr, DecidableEq

/-- Is `o` an operator of level `l`? -/
def opOfLevel (l : BinL) (o : String) : Bool :=
  match l with
  | .bor => o = "|"
  | .band => o = "&"
  | .shift => o = "<<" || o = ">>"
  | .arith => o = "+" || o = "-"
  | .term => o = "*" || o = "/" || o = "//" || o = "%"

/-- Parser states: `top` is the comparison level, `bin l` a binary level,
then unary, power and atoms; `binRest`/`chainRest` carry the left value of
an in-progress left-associative loop / comparison chain. -/
inductive PLvl where
  | top
  | bin (l : BinL)
  | unary
  | power
  | atom
  | binRest (l : BinL) (acc : PyVal)
  | chainRest (acc : Bool) (prev : PyVal)

/-- The operand level below binary level `l`. -/
def nextOf : BinL → PLvl
  | .bor => .bin .band
  | .band => .bin .shift
  | .shift => .bin .arith
  | .arith => .bin .term
  | .term => .unary

/-- Recursive-descent parse-and-evaluate for the modelled CPython
fragment, structurally recursive on fuel. -/
def pyP : Nat → PLvl → List PyTok → Option (PyVal × List PyTok)
  | 0, _, _ => none
  | fuel + 1, lvl, ts =>
    match lvl with
    | .top => do
      let (v, ts1) ← pyP fuel (.bin .bor) ts
      match ts1 with
      | .op o :: ts2 =>
        if isCmpOp o then do
          let (w, ts3) ← pyP fuel (.bin .bor) ts2
          pyP fuel (.chainRest (cmpHolds o v w) w) ts3
        else some (v, ts1)
      | _ => some (v, ts1)
    | .chainRest acc prev =>
      match ts with
      | .op o :: ts2 =>
        if isCmpOp o then do
          let (w, ts3) ← pyP fuel (.bin .bor) ts2
          pyP fuel (.chainRest (acc && cmpHolds o prev w) w) ts3
        else some (boolVal acc, ts)
      | _ => some (boolVal acc, ts)
    | .bin l => do
      let (v, ts1) ← pyP fuel (nextOf l) ts
      pyP fuel (.binRest l v) ts1
    | .binRest l acc =>
      match ts with
      | .op o :: ts2 =>
        if opOfLevel l o then do
          let (w, ts3) ← pyP fuel (nextOf l) ts2
          let r ← applyBin o acc w
          pyP fuel (.binRest l r) ts3
        else some (acc, ts)
      | _ => some (acc, ts)
    | .unary =>
      match ts with
      | .op "-" :: ts2 => do
        let (v, ts3) ← pyP fuel .unary ts2
        some (pyNeg v, ts3)
      | .op "+" :: ts2 => pyP fuel .unary ts2
      | _ => pyP fuel .power ts
    | .power => do
      let (a, ts1) ← pyP fuel .atom ts
      match ts1 with
      | .op "**" :: ts2 => do
        let (b, ts3) ← pyP fuel .unary ts2
        let r ← pyPow a b
        some (r, ts3)
      | _ => some (a, ts1)
    | .atom =>
      match ts with
      | .num n :: ts2 => some (intVal n, ts2)
      | .lparen :: ts2 => do
        let (v, ts3) ← pyP fuel .top ts2
        match ts3 with
        | .rparen :: ts4 => some (v, ts4)
        | _ => none
      | _ => none

/-- Model of `eval(expr)` followed by Python truthiness (`if eval(expr):`),
on the allow-listed fragment: `none` models any raised exception. -/
def pyEvalTruth (s : String) : Option Bool := do
  let ts ← pyTokenize s
  let (v, rest) ← pyP (16 * (ts.length + 2)) .top ts
  if rest.isEmpty then some (truthy v) else none

/-! ### Embedding of `SelectCommand._evaluate_condition` -/

/-- The character allowlist of `SelectCommand._is_safe_expression`
(source line 387). -/
def allowedChars : List Char := "0123456789+-*/%() ==!=<>&|".data

/-- Embedding of `SelectCommand._is_safe_expression` (source lines
385-388). -/
def is_safe_expression (expr : String) : Bool :=
  expr.data.all (fun c => allowedChars.contains c)

/-- The textual substitution step of `_evaluate_condition` (source lines
373-374): replace every `$page` by the current 1-based page number, then
every `$total` by the page count. -/
def substitutedExpr (condition : String) (totalPages pageNum : Nat) : String :=
  pyReplace (pyReplace condition "$page" (toString pageNum)) "$total" (toString totalPages)

/-- The per-page outcome inside the loop of `_evaluate_condition`:
`none` when the substituted expression fails the allowlist or when its
evaluation raises (both cases are skipped by the source), otherwise the
truthiness of its value. -/
def pageOutcome (condition : String) (totalPages pageNum : Nat) : Option Bool :=
  let expr := substitutedExpr condition totalPages pageNum
  if is_safe_expression expr then pyEvalTruth expr else none

/-- Embedding of `SelectCommand._evaluate_condition` (source lines
369-383): visit pages 1..N in order, appending `page - 1` exactly when the
substituted expression is allow-listed and evaluates truthy; every failure
is silently skipped (the source's `except Exception: continue`), so the
function is total and never propagates an error. -/
def evaluate_condition (condition : String) (totalPages : Nat) : List Nat :=
  (List.range' 1 totalPages).foldl
    (fun acc p =>
      match pageOutcome condition totalPages p with
      | some true => acc ++ [p - 1]
      | _ => acc) []

/-! ### The specification's condition-expression grammar

Modelled from the spec: §4.6 requires the condition mini-language to be
evaluated by a dedicated, grammar-restricted parser over integer
literals, `+ - * / %`, parentheses, the comparisons `== != < > <= >=`
and the boolean combinators `&& ||`, with precedence multiplicative >
additive > relational > equality > logical-and > logical-or and
left-to-right associativity within a level.  The spec fixes no rounding
mode for `/` (truncation toward zero is used here; no claim depends on
it) and no coercion between booleans and integers (none is applied). -/

/-- A value of the specification grammar: an integer or a boolean. -/
inductive SpecVal where
  | intv (n : Int)
  | boolv (b : Bool)
  deriving Repr, DecidableEq

/-- The specification grammar's binary levels, weakest first. -/
inductive SBin where
  | orB
  | andB
  | eqB
  | relB
  | addB
  | mulB
  deriving Repr, DecidableEq

/-- Is `o` an operator of spec level `l`? -/
def sOpOfLevel (l : SBin) (o : String) : Bool :=
  match l with
  | .orB => o = "||"
  | .andB => o = "&&"
  | .eqB => o = "==" || o = "!="
  | .relB => o = "<" || o = ">" || o = "<=" || o = ">="
  | .addB => o = "+" || o = "-"
  | .mulB => o = "*" || o = "/" || o = "%"

/-- Apply a binary operator of the specification grammar; a type mismatch
or division/modulus by zero is an evaluation failure. -/
def applySpec (o : String) (a b : SpecVal) : Option SpecVal :=
  match a, b with
  | .intv x, .intv y =>
    if o = "+" then some (.intv (x + y))
    else if o = "-" then some (.intv (x - y))
    else if o = "*" then some (.intv (x * y))
    else if o = "/" then (if y = 0 then none else some (.intv (Int.tdiv x y)))
    else if o = "%" then (if y = 0 then none else some (.intv (Int.tmod x y)))
    else if o = "==" then some (.boolv (x = y))
    else if o = "!=" then some (.boolv (x ≠ y))
    else if o = "<" then some (.boolv (x < y))
    else if o = ">" then some (.boolv (y < x))
    else if o = "<=" then some (.boolv (x ≤ y))
    else if o = ">=" then some (.boolv (y ≤ x))
    else none
  | .boolv x, .boolv y =>
    if o = "&&" then some (.boolv (x && y))
    else if o = "||" then some (.boolv (x || y))
    else if o = "==" then some (.boolv (x = y))
    else if o = "!=" then some (.boolv (x ≠ y))
    else none
  | _, _ => none

/-- Tokenizer of the specification grammar (same token type as the Python
model; `&&` and `||` are single tokens here). -/
def specTokenizeAux : Nat → List Char → Option (List PyTok)
  | 0, _ => none
  | _, [] => some []
  | fuel + 1, c :: cs =>
    if c.isWhitespace then specTokenizeAux fuel cs
    else if c.isDigit then
      let run := (c :: cs).takeWhile Char.isDigit
      let rest := (c :: cs).drop run.length
      do pure (.num (digitsVal run) :: (← specTokenizeAux fuel rest))
    else
      match c, cs with
      | '&', '&' :: cs2 => do pure (.op "&&" :: (← specTokenizeAux fuel cs2))
      | '|', '|' :: cs2 => do pure (.op "||" :: (← specTokenizeAux fuel cs2))
      | '=', '=' :: cs2 => do pure (.op "==" :: (← specTokenizeAux fuel cs2))
      | '!', '=' :: cs2 => do pure (.op "!=" :: (← specTokenizeAux fuel cs2))
      | '<', '=' :: cs2 => do pure (.op "<=" :: (← specTokenizeAux fuel cs2))
      | '>', '=' :: cs2 => do pure (.op ">=" :: (← specTokenizeAux fuel cs2))
      | '<', rest => do pure (.op "<" :: (← specTokenizeAux fuel rest))
      | '>', rest => do pure (.op ">" :: (← specTokenizeAux fuel rest))
      | '+', rest => do pure (.op "+" :: (← specTokenizeAux fuel rest))
      | '-', rest => do pure (.op "-" :: (← specTokenizeAux fuel rest))
      | '*', rest => do pure (.op "*" :: (← specTokenizeAux fuel rest))
      | '/', rest => do pure (.op "/" :: (← specTokenizeAux fuel rest))
      | '%', rest => do pure (.op "%" :: (← specTokenizeAux fuel rest))
      | '(', rest => do pure (.lparen :: (← specTokenizeAux fuel rest))
      | ')', rest => do pure (.rparen :: (← specTokenizeAux fuel rest))
      | _, _ => none

/-- Parser states of the specification grammar. -/
inductive SLvl where
  | bin (l : SBin)
  | atom
  | binRest (l : SBin) (acc : SpecVal)

/-- The operand level below spec binary level `l`. -/
def sNextOf : SBin → SLvl
  | .orB => .bin .andB
  | .andB => .bin .eqB
  | .eqB => .bin .relB
  | .relB => .bin .addB
  | .addB => .bin .mulB
  | .mulB => .atom

/-- Recursive-descent parse-and-evaluate of the specification grammar
(left-associative loops at every binary level). -/
def specP : Nat → SLvl → List PyTok → Option (SpecVal × List PyTok)
  | 0, _, _ => none
  | fuel + 1, lvl, ts =>
    match lvl with
    | .bin l => do
      let (v, ts1) ← specP fuel (sNextOf l) ts
      specP fuel (.binRest l v) ts1
    | .binRest l acc =>
      match ts with
      | .op o :: ts2 =>
        if sOpOfLevel l o then do
          let (w, ts3) ← specP fuel (sNextOf l) ts2
          let r ← applySpec o acc w
          specP fuel (.binRest l r) ts3
        else some (acc, ts)
      | _ => some (acc, ts)
    | .atom =>
      match ts with
      | .num n :: ts2 => some (.intv n, ts2)
      | .lparen :: ts2 => do
        let (v, ts3) ← specP fuel (.bin .orB) ts2
        match ts3 with
        | .rparen :: ts4 => some (v, ts4)
        | _ => none
      | _ => none

/-- Parse and evaluate one substituted condition string against the
specification grammar; `none` models a parse or evaluation failure. -/
def specEvalExpr (s : String) : Option SpecVal := do
  let ts ← specTokenizeAux (s.data.length + 1) s.data
  let (v, rest) ← specP (16 * (ts.length + 2)) (.bin .orB) ts
  if rest.isEmpty then some v else none

/-- Modelled from the spec: the §4.6 condition evaluator.  Visit pages
1..N, substitute `$page`/`$total` textually, evaluate against the fixed
grammar, select the page exactly when the result is the boolean true,
and silently skip pages whose expression fails to parse or evaluate. -/
def specEvalCondition (condition : String) (totalPages : Nat) : List Nat :=
  (List.range' 1 totalPages).filterMap
    (fun p =>
      match specEvalExpr (substitutedExpr condition totalPages p) with
      | some (.boolv true) => some (p - 1)
      | _ => none)

/-! ### Embedding of the pipeline-text parser (`PDFLParser`) -/

/-- A parsed parameter value.  The source's `_parse_value` returns a
Python `str`, `bool`, `int` or `float`; quoted strings and bare words are
both plain `str` values in the source and share the `str` constructor.
A Python `float` is an IEEE double; it is modelled here exactly by the
decimal value of its literal, `num / den`, which is faithful for every
value a theorem below mentions. -/
inductive Value where
  | str (s : String)
  | boolV (b : Bool)
  | intV (n : Int)
  | floatV (num : Int) (den : Nat)
  deriving Repr, DecidableEq

/-- The single-quote character (written via its code point). -/
def squote : Char := Char.ofNat 39

/-- The double-quote character (written via its code point). -/
def dquote : Char := Char.ofNat 34

/-- The opening-brace character (written via its code point). -/
def lbrace : Char := Char.ofNat 123

/-- The closing-brace character (written via its code point). -/
def rbrace : Char := Char.ofNat 125

/-- Model of `s.startswith(q) and s.endswith(q)` for a one-character
quote `q` (true for the one-character string consisting of `q` itself,
exactly as in Python). -/
def wrappedBy (s : String) (q : Char) : Bool :=
  match s.data with
  | [] => false
  | c :: cs =>
    c = q &&
      (match (c :: cs).getLast? with
       | some d => d = q
       | none => false)

/-- The quote test of `_parse_value` (source lines 526-527). -/
def isWrappedTok (s : String) : Bool :=
  wrappedBy s dquote || wrappedBy s squote

/-- Model of Python `s[1:-1]`. -/
def stripQuotes (s : String) : String :=
  String.mk (s.data.drop 1).dropLast

/-- Body of the regex `-?\d+(\.\d+)?` after the optional sign: a nonempty
digit run, optionally followed by a dot and another nonempty digit run,
and nothing else. -/
def numBody (l : List Char) : Bool :=
  let d1 := l.takeWhile Char.isDigit
  let r := l.dropWhile Char.isDigit
  if r.isEmpty then !d1.isEmpty
  else if r.head? = some '.' then
    !d1.isEmpty && !r.tail.isEmpty && r.tail.all Char.isDigit
  else false

/-- Model of `re.match(r'^-?\d+(\.\d+)?$', value_str)` (source line
535). -/
def matchesNumber (s : String) : Bool :=
  if s.data.head? = some '-' then numBody s.data.tail else numBody s.data

/-- Exact decimal value of an unsigned float-literal body. -/
def floatBuild (neg : Bool) (l : List Char) : Value :=
  if (l.dropWhile Char.isDigit).head? = some '.' then
    Value.floatV
      (if neg then
        -(digitsVal (l.takeWhile Char.isDigit ++ (l.dropWhile Char.isDigit).tail) : Int)
       else
        (digitsVal (l.takeWhile Char.isDigit ++ (l.dropWhile Char.isDigit).tail) : Int))
      (10 ^ (l.dropWhile Char.isDigit).tail.length)
  else Value.floatV 0 1

/-- Exact decimal value of a float literal that matched the number
regex with a dot. -/
def floatOfToken (s : String) : Value :=
  if s.data.head? = some '-' then floatBuild true s.data.tail
  else floatBuild false s.data

/-- Embedding of `PDFLParser._parse_value` (source lines 522-544): strip,
then in order test for a fully quoted token (quotes stripped, no escape
processing), a case-insensitive boolean token, a numeric token (`Integer`
without a dot, `Float` with one; the source's try/except around the
conversion cannot fire for a token the regex accepted), and otherwise
keep the bare token. -/
def parse_value (valueStr : String) : Value :=
  let s := myTrim valueStr
  if isWrappedTok s then .str (stripQuotes s)
  else if myToLower s = "true" then .boolV true
  else if myToLower s = "false" then .boolV false
  else if matchesNumber s then
    if containsSub s "." then floatOfToken s
    else
      match pyInt s with
      | .ok n => .intV n
      | .error _ => .str s
  else .str s

/-- Insert a key/value pair into the parameter mapping with Python-dict
semantics: a later duplicate key overwrites in place. -/
def upsert (l : List (String × Value)) (k : String) (v : Value) :
    List (String × Value) :=
  if l.any (fun p => p.1 = k) then
    l.map (fun p => if p.1 = k then (k, v) else p)
  else l ++ [(k, v)]

/-- The pair loop of `_parse_parameters` (source lines 510-518): a pair
without a `:` separator raises; otherwise split at the first `:`, strip
key and value, parse the value. -/
def parse_parameters_aux : List String → List (String × Value) →
    Except PErr (List (String × Value))
  | [], acc => .ok acc
  | pair :: rest, acc =>
    if containsSub pair ":" then
      let kl := pair.data.takeWhile (fun c => c ≠ ':')
      let k := String.mk kl
      let v := String.mk (pair.data.drop (kl.length + 1))
      parse_parameters_aux rest
        (upsert acc (myTrim k) (parse_value (myTrim v)))
    else .error (.paramSyntaxError ("无效的参数格式: " ++ pair))

/-- Embedding of `PDFLParser._parse_parameters` (source lines 504-520);
`pair.split(':', 1)` is the split at the first colon. -/
def parse_parameters (paramsStr : String) : Except PErr (List (String × Value)) :=
  if paramsStr = "" then .ok []
  else parse_parameters_aux ((splitOnStr paramsStr ",").map myTrim) []

/-- The capability class of a registered command: `LoadCommand` is the
only `Generator` subclass; `Select`, `Concat`, `PNG` and `Rotate` are
`Transformer`s; `Save` is a `Consumer` (source lines 299-463, 619-631). -/
inductive CmdKind where
  | load
  | select
  | concat
  | png
  | save
  | rotate
  deriving Repr, DecidableEq

/-- Model of `isinstance(cmd, Generator)` for registered commands. -/
def isGeneratorK (k : CmdKind) : Bool := k = .load

/-- Embedding of `CommandRegistry.get_command` (source lines 139-143)
over the registrations performed in the source file. -/
def registryLookup (name : String) : Except PErr CmdKind :=
  if name = "Load" then .ok .load
  else if name = "Select" then .ok .select
  else if name = "Concat" then .ok .concat
  else if name = "PNG" then .ok .png
  else if name = "Save" then .ok .save
  else if name = "Rotate" then .ok .rotate
  else .error (.unknownCommand ("未知命令: " ++ name))

/-- A parsed stage: name, capability class of its registered command
class, and parameter mapping. -/
structure Cmd where
  name : String
  kind : CmdKind
  params : List (String × Value)
  deriving Repr, DecidableEq

/-- A word character of the regex `\w` (ASCII letters, digits,
underscore — every registered command name is ASCII). -/
def isWordChar (c : Char) : Bool := c.isAlphanum || c = '_'

/-- Model of `re.match(r'(\w+)(?:\{([^}]*)\})?', cmd_str)` (source line
492).  `re.match` anchors only at the start: it succeeds exactly when the
string begins with a word character; the identifier is the maximal word
run; the optional group participates exactly when it is immediately
followed by `{` with a later `}`, capturing the text before the first
`}`; any remaining text is ignored. -/
def rxCommandMatch (s : String) : Option (String × Option String) :=
  let l := s.data
  let w := l.takeWhile isWordChar
  if w.isEmpty then none
  else
    let rest := l.drop w.length
    if rest.head? = some lbrace then
      if rest.tail.any (fun c => c = rbrace) then
        some (String.mk w, some (String.mk (rest.tail.takeWhile (fun c => c ≠ rbrace))))
      else some (String.mk w, none)
    else some (String.mk w, none)

/-- Embedding of `PDFLParser._parse_command` (source lines 490-502). -/
def parse_command (cmdStr : String) : Except PErr Cmd :=
  let s := myTrim cmdStr
  match rxCommandMatch s with
  | none => .error (.parseError ("无效的命令格式: " ++ s))
  | some (name, paramsOpt) => do
    let k ← registryLookup name
    let ps ←
      match paramsOpt with
      | some pstr => if pstr = "" then pure [] else parse_parameters pstr
      | none => pure []
    .ok ⟨name, k, ps⟩

/-- Embedding of `PDFLParser._validate_pipeline` (source lines 546-556):
reject an empty list, a first stage that is not a Generator, and any
Generator after the first position. -/
def validate_pipeline (commands : List Cmd) : Except PErr Unit :=
  match commands with
  | [] => .error (.structureError "管道不能为空")
  | c :: rest =>
    if !isGeneratorK c.kind then
      .error (.structureError "管道的第一个命令必须是生成器（如Load）")
    else if rest.any (fun x => isGeneratorK x.kind) then
      .error (.structureError "生成器命令只能作为管道的第一个命令")
    else .ok ()

/-- Embedding of `PDFLParser.parse` (source lines 474-488): strip, reject
an empty pipeline, split on `|`, parse each stage substring, then
validate the whole list. -/
def parsePipeline (pipelineText : String) : Except PErr (List Cmd) :=
  let t := myTrim pipelineText
  if t = "" then .error (.structureError "管道不能为空")
  else do
    let cmds ← (splitOnStr t "|").mapM (fun cs => parse_command cs)
    let _ ← validate_pipeline cmds
    .ok cmds

/-! ### Embedding of the execution engine

The document contents handled by the commands live behind the external
Document capability (`main.py`, out of the specified core).  They are
modelled abstractly: a document is its page count, a call into the
capability is recorded in a trace, and the filesystem is a pair of lists
of abstract directory/file identifiers.  This is enough to state and
prove the engine-level claims (state guards, cleanup, no-execution after
failed validation), none of which depend on document binary content. -/

/-- Embedding of `StreamState` (source lines 13-16). -/
inductive StreamState where
  | single
  | multi
  deriving Repr, DecidableEq

/-- Abstract document content: one document with its page count, or an
ordered collection of documents. -/
inductive Content where
  | one (pages : Nat)
  | many (docs : List Nat)
  deriving Repr, DecidableEq

/-- Embedding of `Stream` (source lines 81-89). -/
structure Stream where
  content : Content
  state : StreamState
  deriving Repr, DecidableEq

/-- A recorded call into the external Document capability. -/
inductive DocOp where
  | loadDoc
  | splitPages
  | pageCount
  | getPage (p : Int)
  | mergeDocs
  | rasterize
  | saveDoc
  deriving Repr, DecidableEq

/-- Embedding of the claim-relevant fields of `PipelineContext` (source
lines 19-55): run counters and the scoped resources.  The temp directory
and tracked temp files are abstract identifiers. -/
structure Ctx where
  current_step : Nat := 0
  total_steps : Nat := 0
  temp_dir : Option Nat := none
  temp_files : List Nat := []
  deriving Repr, DecidableEq

/-- The filesystem visible to the run: existing directories and files,
plus a supply of fresh identifiers for `tempfile.mkdtemp`. -/
structure FS where
  dirs : List Nat := []
  files : List Nat := []
  fresh : Nat := 0
  deriving Repr, DecidableEq

/-- The full mutable state threaded through an execution: the run's
`PipelineContext`, the filesystem, and the trace of Document-capability
calls made so far. -/
structure S where
  ctx : Ctx
  fs : FS
  trace : List DocOp
  deriving Repr, DecidableEq

/-- Record one Document-capability call. -/
def addTrace (s : S) (o : DocOp) : S :=
  { s with trace := s.trace ++ [o] }

/-- Embedding of `PipelineContext.get_temp_dir` (source lines 42-46):
return the scoped temp directory, creating a fresh one on first demand. -/
def get_temp_dir (s : S) : Nat × S :=
  match s.ctx.temp_dir with
  | some d => (d, s)
  | none =>
    let d := s.fs.fresh
    (d, { s with
           ctx := { s.ctx with temp_dir := some d },
           fs := { s.fs with dirs := s.fs.dirs ++ [d], fresh := s.fs.fresh + 1 } })

/-- The `shutil.rmtree` step of `cleanup` (source lines 50-52): delete
the scoped temp directory when it is set and exists. -/
def removeDir (s : S) : S :=
  match s.ctx.temp_dir with
  | some d =>
    if d ∈ s.fs.dirs then
      { s with fs := { s.fs with dirs := s.fs.dirs.filter (fun x => x ≠ d) } }
    else s
  | none => s

/-- The `os.remove` step of `cleanup` (source lines 53-55) for one
tracked temp file: remove it when it exists. -/
def removeFile (t : S) (f : Nat) : S :=
  if f ∈ t.fs.files then
    { t with fs := { t.fs with files := t.fs.files.filter (fun x => x ≠ f) } }
  else t

/-- Embedding of `PipelineContext.cleanup` (source lines 48-55): delete
the scoped temp directory if it exists, then remove each tracked temp
file that exists. -/
def cleanup (s : S) : S :=
  let s1 := removeDir s
  s1.ctx.temp_files.foldl removeFile s1

/-- Embedding of `LoadCommand.execute` (source lines 303-314): reject a
non-`None` input stream or a missing/falsy `url` parameter, otherwise
load the document (capability call; the loaded document's page count is
not modelled and is taken as 1) and emit a Single stream. -/
def loadExecute (params : List (String × Value)) (input : Option Stream)
    (s : S) : Except PErr Stream × S :=
  match input with
  | some _ => (.error (.valueError "Load命令只能作为管道的第一个命令"), s)
  | none =>
    match (params.find? (fun p => p.1 = "url")).map (fun p => p.2) with
    | none => (.error (.valueError "Load命令需要url参数"), s)
    | some v =>
      if v = .str "" || v = .boolV false || v = .intV 0 then
        (.error (.valueError "Load命令需要url参数"), s)
      else (.ok ⟨.one 1, .single⟩, addTrace s .loadDoc)

/-- Embedding of `SelectCommand.execute` (source lines 321-350): guard
the stream state first, then dispatch on the `mode` / `pages` / `where`
parameters; page extraction performs one `get_page_count` call and one
`get_single_page` call per selected index (the capability extracts pages
lazily and does not bounds-check). -/
def selectExecute (params : List (String × Value)) (input : Stream)
    (s : S) : Except PErr Stream × S :=
  if input.state ≠ .single then
    (.error (.stateError "Select命令只能应用于SingleStream"), s)
  else
    match input.content with
    | .many _ => (.error (.valueError "内容类型错误"), s)
    | .one n =>
      match (params.find? (fun p => p.1 = "mode")).map (fun p => p.2) with
      | some m =>
        if m = .str "each" then
          (.ok ⟨.many (List.replicate n 1), .multi⟩, addTrace s .splitPages)
        else (.error (.valueError "不支持的mode值"), s)
      | none =>
        match (params.find? (fun p => p.1 = "pages")).map (fun p => p.2) with
        | some (Value.str ps) =>
          let s1 := addTrace s .pageCount
          match parse_pages_string ps (n : Int) with
          | .error e => (.error e, s1)
          | .ok pages =>
            let s2 := pages.foldl (fun t p => addTrace t (.getPage p)) s1
            (.ok ⟨.many (pages.map (fun _ => 1)), .multi⟩, s2)
        | some _ => (.error (.valueError "参数类型错误"), s)
        | none =>
          match (params.find? (fun p => p.1 = "where")).map (fun p => p.2) with
          | some (Value.str cond) =>
            let s1 := addTrace s .pageCount
            let pages := evaluate_condition cond n
            let s2 := pages.foldl (fun t p => addTrace t (.getPage (p : Int))) s1
            (.ok ⟨.many (pages.map (fun _ => 1)), .multi⟩, s2)
          | some _ => (.error (.valueError "参数类型错误"), s)
          | none => (.error (.valueError "Select命令需要mode、pages或where参数"), s)

/-- Embedding of `ConcatCommand.execute` (source lines 395-405): guard
the stream state first (the guard is the first statement of the body),
then merge via the capability. -/
def concatExecute (input : Stream) (s : S) : Except PErr Stream × S :=
  if input.state ≠ .multi then
    (.error (.stateError "Concat命令只能应用于MultiStream"), s)
  else
    match input.content with
    | .one _ => (.error (.valueError "内容类型错误"), s)
    | .many ds =>
      (.ok ⟨.one (ds.foldl (· + ·) 0), .single⟩, addTrace s .mergeDocs)

/-- Embedding of `PNGCommand.execute` (source lines 412-429): both
stream states are accepted; the rasterization is a capability call and
the stream passes through. -/
def pngExecute (input : Stream) (s : S) : Except PErr Stream × S :=
  (.ok input, addTrace s .rasterize)

/-- Embedding of `SaveCommand.execute` (source lines 436-463): demand
the scoped temp directory (creating it on first use), write via the
capability, and return the input stream unchanged (archive packaging is
external and not modelled). -/
def saveExecute (input : Stream) (s : S) : Except PErr Stream × S :=
  let (_, s1) := get_temp_dir s
  (.ok input, addTrace s1 .saveDoc)

/-- Embedding of `RotateCommand.execute` (source lines 623-631): a stub
that passes the stream through. -/
def rotateExecute (input : Stream) (s : S) : Except PErr Stream × S :=
  (.ok input, s)

/-- One stage invocation: the type of `command.execute(stream, ctx)` as
the engine sees it. -/
def StepFun : Type :=
  Cmd → Option Stream → S → Except PErr Stream × S

/-- The dispatch of the registered commands (a non-Load command invoked
with no input stream would fault on attribute access in the source;
validation makes that unreachable). -/
def commandStep : StepFun := fun c input s =>
  match c.kind with
  | .load => loadExecute c.params input s
  | .select =>
    match input with
    | none => (.error (.valueError "输入流缺失"), s)
    | some st => selectExecute c.params st s
  | .concat =>
    match input with
    | none => (.error (.valueError "输入流缺失"), s)
    | some st => concatExecute st s
  | .png =>
    match input with
    | none => (.error (.valueError "输入流缺失"), s)
    | some st => pngExecute st s
  | .save =>
    match input with
    | none => (.error (.valueError "输入流缺失"), s)
    | some st => saveExecute st s
  | .rotate =>
    match input with
    | none => (.error (.valueError "输入流缺失"), s)
    | some st => rotateExecute st s

/-- The stage loop of `PDFLExecutor.execute` (source lines 572-587):
advance `current_step`, invoke the stage, thread the resulting stream,
and stop at the first raised error (which carries the state as mutated so
far). -/
def runStages (step : StepFun) :
    List Cmd → Nat → Option Stream → S → Except PErr (Option Stream) × S
  | [], _, cur, s => (.ok cur, s)
  | c :: rest, i, cur, s =>
    let s1 := { s with ctx := { s.ctx with current_step := i + 1 } }
    match step c cur s1 with
    | (.ok out, s2) => runStages step rest (i + 1) (some out) s2
    | (.error e, s2) => (.error e, s2)

/-- Embedding of `PDFLExecutor.execute` (source lines 567-594): set
`total_steps`, run the stages from an undefined stream, and — via the
source's `finally:` — apply `cleanup` to the resulting state on both the
success and the error path before returning. -/
def execute (step : StepFun) (commands : List Cmd) (s : S) :
    Except PErr (Option Stream) × S :=
  let s0 := { s with ctx := { s.ctx with total_steps := commands.length } }
  let r := runStages step commands 0 none s0
  (r.1, cleanup r.2)

/-- Embedding of `parse_and_execute` (source lines 599-613): parse (and
validate) the pipeline text, then execute; a parse/validation error
propagates without the engine ever starting. -/
def parse_and_execute (step : StepFun) (pipelineText : String) (s : S) :
    Except PErr (Option Stream) × S :=
  match parsePipeline pipelineText with
  | .error e => (.error e, s)
  | .ok cmds => execute step cmds s

/-! ### Properties of `sortDedup` -/

theorem insertSorted_mem (x : Int) (l : List Int) (y : Int) :
    y ∈ insertSorted x l ↔ y = x ∨ y ∈ l := by
  induction l with
  | nil => simp [insertSorted]
  | cons z zs ih =>
    by_cases h1 : x < z
    · simp only [insertSorted, if_pos h1, List.mem_cons]
    · by_cases h2 : x = z
      · simp only [insertSorted, if_neg h1, if_pos h2, List.mem_cons]
        subst h2
        tauto
      · simp only [insertSorted, if_neg h1, if_neg h2, List.mem_cons, ih]
        tauto

theorem insertSorted_head (x : Int) (l : List Int) (w : Int)
    (h : (insertSorted x l).head? = some w) : w = x ∨ l.head? = some w := by
  cases l with
  | nil =>
    left
    simp only [insertSorted, List.head?_cons, Option.some.injEq] at h
    omega
  | cons z zs =>
    by_cases h1 : x < z
    · left
      simp only [insertSorted, if_pos h1, List.head?_cons, Option.some.injEq] at h
      omega
    · by_cases h2 : x = z
      · right
        simpa only [insertSorted, if_neg h1, if_pos h2] using h
      · right
        simp only [insertSorted, if_neg h1, if_neg h2, List.head?_cons,
          Option.some.injEq] at h
        simp only [List.head?_cons, Option.some.injEq]
        exact h

theorem insertSorted_chain (x : Int) (l : List Int)
    (h : List.Chain' (· < ·) l) : List.Chain' (· < ·) (insertSorted x l) := by
  induction l with
  | nil => simp [insertSorted]
  | cons z zs ih =>
    by_cases h1 : x < z
    · simp only [insertSorted, if_pos h1]
      exact List.chain'_cons.mpr ⟨h1, h⟩
    · by_cases h2 : x = z
      · simpa only [insertSorted, if_neg h1, if_pos h2] using h
      · have hzx : z < x := by omega
        have hzs : List.Chain' (· < ·) zs := h.tail
        simp only [insertSorted, if_neg h1, if_neg h2]
        rw [List.chain'_cons']
        refine ⟨fun w hw => ?_, ih hzs⟩
        rcases insertSorted_head x zs w (Option.mem_def.mp hw) with rfl | hh
        · exact hzx
        · cases zs with
          | nil => simp at hh
          | cons u us =>
            simp only [List.head?_cons, Option.some.injEq] at hh
            subst hh
            exact (List.chain'_cons.mp h).1

theorem sortDedup_chain (l : List Int) : List.Chain' (· < ·) (sortDedup l) := by
  induction l with
  | nil => simp [sortDedup]
  | cons x xs ih => exact insertSorted_chain x _ ih

theorem sortDedup_mem (l : List Int) (y : Int) : y ∈ sortDedup l ↔ y ∈ l := by
  induction l with
  | nil => simp [sortDedup]
  | cons x xs ih =>
    simp only [sortDedup, List.foldr_cons] at *
    rw [insertSorted_mem, ih]
    simp

/-! ### Claim-side denotation of page-set tokens -/

/-- Is the token a positive-integer literal (a nonempty digit run with
value at least 1)? -/
def posIntTok (t : String) : Bool :=
  allDigits t.data && decide (1 ≤ digitsVal t.data)

/-- Are the pieces of a range token exactly two positive integers? -/
def rangeWF : List String → Bool
  | [a, b] => posIntTok a && posIntTok b
  | _ => false

/-- A well-formed page-set token in the sense of the claim: a positive
integer, an inclusive range `a..b` of positive integers, or `$total`. -/
def wellFormedToken (t : String) : Bool :=
  if t = "$total" then true
  else if containsSub t ".." then rangeWF (splitOnStr t "..")
  else posIntTok t

/-- The 0-based pages referenced by a range `a..b`: `a-1` up to `b-1`
inclusive. -/
def rangeDen : List String → List Int
  | [a, b] => pyRange ((digitsVal a.data : Int) - 1) (digitsVal b.data)
  | _ => []

/-- The set of 0-based indices a well-formed token references, per the
claim: token `n` references page `n`, `a..b` references pages `a` to `b`
inclusive, `$total` references the last page; all converted to 0-based. -/
def tokenPages (t : String) (totalPages : Int) : List Int :=
  if t = "$total" then [totalPages - 1]
  else if containsSub t ".." then rangeDen (splitOnStr t "..")
  else [(digitsVal t.data : Int) - 1]

theorem pyInt_digits (s : String) (h : allDigits s.data = true) :
    pyInt s = .ok (digitsVal s.data) := by
  unfold pyInt
  rcases hd : s.data with _ | ⟨c, cs⟩
  · rw [hd] at h; simp [allDigits] at h
  · rw [hd] at h
    have hc : c.isDigit = true :=
      (List.all_eq_true.mp ((Bool.and_eq_true _ _).mp h).2) c (by simp)
    simp only [List.head?_cons, List.tail_cons]
    have hne1 : ¬(some c = some '-') := by
      intro he
      injection he with he2
      rw [he2] at hc
      exact absurd hc (by decide)
    have hne2 : ¬(some c = some '+') := by
      intro he
      injection he with he2
      rw [he2] at hc
      exact absurd hc (by decide)
    rw [if_neg hne1, if_neg hne2, if_pos h]

theorem rangeContribution_wf (pieces : List String)
    (h : rangeWF pieces = true) :
    rangeContribution pieces = .ok (rangeDen pieces) := by
  match pieces with
  | [a, b] =>
    simp only [rangeWF, Bool.and_eq_true] at h
    have ha' := ((Bool.and_eq_true _ _).mp h.1).1
    have hb' := ((Bool.and_eq_true _ _).mp h.2).1
    simp only [rangeContribution, rangeDen, pyInt_digits a ha', pyInt_digits b hb']
    rfl
  | [] => simp [rangeWF] at h
  | [a] => simp [rangeWF] at h
  | a :: b :: c :: rest => simp [rangeWF] at h

theorem perToken_wf (total : Int) (t : String)
    (h : wellFormedToken t = true) :
    perToken total t = .ok (tokenPages t total) := by
  unfold wellFormedToken at h
  unfold perToken tokenPages
  by_cases ht : t = "$total"
  · subst ht
    have hns : containsSub "$total" ".." = false := by decide
    simp [hns]
  · simp only [ht, if_false] at h ⊢
    by_cases hc : containsSub t ".." = true
    · simp only [hc, if_true] at h ⊢
      exact rangeContribution_wf _ h
    · have hc' : containsSub t ".." = false := by
        revert hc; cases containsSub t ".." <;> simp
      simp only [hc', Bool.false_eq_true, if_false] at h ⊢
      have h' := ((Bool.and_eq_true _ _).mp h).1
      rw [pyInt_digits t h']
      rfl

theorem collectPages_wf (total : Int) (parts : List String)
    (h : ∀ t ∈ parts, wellFormedToken t = true) :
    collectPages total parts = .ok ((parts.map (fun t => tokenPages t total)).flatten) := by
  induction parts with
  | nil => simp [collectPages]
  | cons t rest ih =>
    have h1 := h t (by simp)
    have h2 : ∀ u ∈ rest, wellFormedToken u = true := fun u hu => h u (by simp [hu])
    simp only [collectPages, perToken_wf total t h1, ih h2]
    rfl

/-- C10: the page-set parser performs no bounds checking: token `0`
contributes index `-1`, token `99` over a 5-page document contributes
index `98` (both without error), and a reversed range `5..3` contributes
no pages rather than raising. -/
theorem claim10_no_bounds_check :
    parse_pages_string "0" 5 = .ok [-1] ∧
    parse_pages_string "99" 5 = .ok [98] ∧
    parse_pages_string "0,99" 5 = .ok [-1, 98] ∧
    parse_pages_string "5..3" 10 = .ok [] := by
  refine ⟨by decide, by decide, by decide, by decide⟩

/-- C2: on page-set expressions made of well-formed tokens the parser
returns exactly the union of the referenced 1-based pages converted to
0-based indices, deduplicated and sorted ascending; in particular
`"1..3,5..7"` yields `[0,1,2,4,5,6]` and `"1,$total"` over a 10-page
document yields `[0,9]`. -/
theorem claim2_page_set_semantics :
    parse_pages_string "1..3,5..7" 10 = .ok [0, 1, 2, 4, 5, 6] ∧
    parse_pages_string "1,$total" 10 = .ok [0, 9] ∧
    ∀ (s : String) (total : Int),
      (∀ t ∈ splitTokens s, wellFormedToken t = true) →
      ∃ l, parse_pages_string s total = .ok l ∧
        List.Chain' (· < ·) l ∧
        ∀ x : Int, x ∈ l ↔ ∃ t ∈ splitTokens s, x ∈ tokenPages t total := by
  refine ⟨by decide, by decide, fun s total h => ?_⟩
  refine ⟨sortDedup ((( splitTokens s).map (fun t => tokenPages t total)).flatten), ?_, ?_, ?_⟩
  · unfold parse_pages_string
    rw [collectPages_wf total _ h]
    rfl
  · exact sortDedup_chain _
  · intro x
    rw [sortDedup_mem, List.mem_flatten]
    constructor
    · rintro ⟨ll, hll, hx⟩
      rcases List.mem_map.mp hll with ⟨t, ht, rfl⟩
      exact ⟨t, ht, hx⟩
    · rintro ⟨t, ht, hx⟩
      exact ⟨tokenPages t total, List.mem_map.mpr ⟨t, ht, rfl⟩, hx⟩

/-- Witness for C2 at the concrete page-set `"2,1..3"` over 7 pages. -/
theorem claim2_witness :
    (∀ t ∈ splitTokens "2,1..3", wellFormedToken t = true) ∧
    ∃ l, parse_pages_string "2,1..3" 7 = .ok l ∧
      List.Chain' (· < ·) l ∧
      ∀ x : Int, x ∈ l ↔ ∃ t ∈ splitTokens "2,1..3", x ∈ tokenPages t 7 :=
  ⟨by decide, claim2_page_set_semantics.2.2 "2,1..3" 7 (by decide)⟩

/-! ### Claims C1 and C6: the condition evaluator -/

theorem evalCondition_foldl (f : Nat → Option Bool) (l : List Nat) (acc : List Nat) :
    l.foldl
      (fun a p => match f p with | some true => a ++ [p - 1] | _ => a) acc =
    acc ++ l.filterMap
      (fun p => match f p with | some true => some (p - 1) | _ => none) := by
  induction l generalizing acc with
  | nil => simp
  | cons p rest ih =>
    match hf : f p with
    | some true => simp [List.foldl_cons, hf, ih]
    | some false => simp [List.foldl_cons, hf, ih]
    | none => simp [List.foldl_cons, hf, ih]

/-- C6: a page whose substituted expression fails the character allowlist,
fails to parse, or fails to evaluate (`pageOutcome … = none`) is silently
excluded from the result, no error is propagated (the function is total
and the loop's `except … continue` is baked into `pageOutcome`), and the
result is determined pointwise by the outcomes of the surviving pages, so
the remaining pages are unaffected. -/
theorem claim6_silent_skip (condition : String) (totalPages : Nat) :
    evaluate_condition condition totalPages =
      (List.range' 1 totalPages).filterMap
        (fun p => match pageOutcome condition totalPages p with
          | some true => some (p - 1)
          | _ => none) ∧
    ∀ p ∈ List.range' 1 totalPages,
      pageOutcome condition totalPages p = none →
      p - 1 ∉ evaluate_condition condition totalPages := by
  have heq : evaluate_condition condition totalPages =
      (List.range' 1 totalPages).filterMap
        (fun p => match pageOutcome condition totalPages p with
          | some true => some (p - 1)
          | _ => none) := by
    unfold evaluate_condition
    rw [evalCondition_foldl]
    simp
  refine ⟨heq, fun p hp hnone hmem => ?_⟩
  rw [heq] at hmem
  rcases List.mem_filterMap.mp hmem with ⟨q, hq, hmatch⟩
  have hq1 : 1 ≤ q := (List.mem_range'_1.mp hq).1
  have hp1 : 1 ≤ p := (List.mem_range'_1.mp hp).1
  match hqo : pageOutcome condition totalPages q with
  | some true =>
    rw [hqo] at hmatch
    have : q - 1 = p - 1 := Option.some.inj hmatch
    have : q = p := by omega
    rw [this] at hqo
    rw [hqo] at hnone
    cases hnone
  | some false => rw [hqo] at hmatch; cases hmatch
  | none => rw [hqo] at hmatch; cases hmatch

/-- Witness for C6: for the condition `"$page % ($page - 2) == 0"` over 3
pages, page 2 divides by zero (`2 % (2 - 2)`), its outcome is `none`, and
index 1 is excluded while pages 1 and 3 still evaluate. -/
theorem claim6_witness :
    pageOutcome "$page % ($page - 2) == 0" 3 2 = none ∧
    2 - 1 ∉ evaluate_condition "$page % ($page - 2) == 0" 3 ∧
    evaluate_condition "$page % ($page - 2) == 0" 3 = [0, 2] :=
  ⟨by decide,
   (claim6_silent_skip "$page % ($page - 2) == 0" 3).2 2 (by decide) (by decide),
   by decide⟩

/-- C1 (divergence of the code from the specified grammar): for the
condition `"$page >= 1 && $page <= 2"` over a 3-page document the
specification grammar of §4.6 selects pages 1 and 2 (indices `[0, 1]`),
but the source's `eval`-based evaluator selects nothing, because `&&` is
not a Python operator: every page's substituted expression is a Python
syntax error and is silently skipped.  On `&&`-free conditions such as the
spec's own example `"$page % 2 == 1"` the two evaluators agree. -/
theorem claim1_condition_divergence :
    specEvalCondition "$page >= 1 && $page <= 2" 3 = [0, 1] ∧
    evaluate_condition "$page >= 1 && $page <= 2" 3 = [] ∧
    specEvalCondition "$page % 2 == 1" 5 = [0, 2, 4] ∧
    evaluate_condition "$page % 2 == 1" 5 = [0, 2, 4] :=
  ⟨by decide, by decide, by decide, by decide⟩

/-! ### Claim C3: unconditional resource cleanup -/

theorem removeFile_ctx (t : S) (f : Nat) : (removeFile t f).ctx = t.ctx := by
  unfold removeFile
  split <;> rfl

theorem removeFile_dirs (t : S) (f : Nat) :
    (removeFile t f).fs.dirs = t.fs.dirs := by
  unfold removeFile
  split <;> rfl

theorem removeFile_subset (t : S) (f x : Nat)
    (h : x ∈ (removeFile t f).fs.files) : x ∈ t.fs.files := by
  unfold removeFile at h
  split at h
  · exact (List.mem_filter.mp h).1
  · exact h

theorem removeFile_self (t : S) (f : Nat) : f ∉ (removeFile t f).fs.files := by
  unfold removeFile
  split
  · intro hmem
    have := (List.mem_filter.mp hmem).2
    simp at this
  · assumption

theorem foldl_removeFile_ctx (L : List Nat) (t : S) :
    (L.foldl removeFile t).ctx = t.ctx := by
  induction L generalizing t with
  | nil => rfl
  | cons g L ih => rw [List.foldl_cons, ih, removeFile_ctx]

theorem foldl_removeFile_dirs (L : List Nat) (t : S) :
    (L.foldl removeFile t).fs.dirs = t.fs.dirs := by
  induction L generalizing t with
  | nil => rfl
  | cons g L ih => rw [List.foldl_cons, ih, removeFile_dirs]

theorem foldl_removeFile_subset (L : List Nat) (t : S) (x : Nat)
    (h : x ∈ (L.foldl removeFile t).fs.files) : x ∈ t.fs.files := by
  induction L generalizing t with
  | nil => exact h
  | cons g L ih =>
    rw [List.foldl_cons] at h
    exact removeFile_subset t g x (ih _ h)

theorem foldl_removeFile_all (L : List Nat) (t : S) (f : Nat) (hf : f ∈ L) :
    f ∉ (L.foldl removeFile t).fs.files := by
  induction L generalizing t with
  | nil => cases hf
  | cons g L ih =>
    rw [List.foldl_cons]
    rcases List.mem_cons.mp hf with rfl | hmem
    · intro hc
      exact removeFile_self t f (foldl_removeFile_subset L (removeFile t f) f hc)
    · exact ih _ hmem

theorem removeDir_ctx (s : S) : (removeDir s).ctx = s.ctx := by
  unfold removeDir
  split
  · split <;> rfl
  · rfl

theorem removeDir_notin (s : S) (d : Nat) (hd : s.ctx.temp_dir = some d) :
    d ∉ (removeDir s).fs.dirs := by
  unfold removeDir
  rw [hd]
  by_cases hmem : d ∈ s.fs.dirs
  · simp only [if_pos hmem]
    intro hc
    have := (List.mem_filter.mp hc).2
    simp at this
  · simp only [if_neg hmem]
    exact hmem

theorem cleanup_ctx (s : S) : (cleanup s).ctx = s.ctx := by
  unfold cleanup
  rw [foldl_removeFile_ctx, removeDir_ctx]

theorem cleanup_dir_post (s : S) (d : Nat)
    (hd : (cleanup s).ctx.temp_dir = some d) : d ∉ (cleanup s).fs.dirs := by
  rw [cleanup_ctx] at hd
  unfold cleanup
  rw [foldl_removeFile_dirs]
  exact removeDir_notin s d hd

theorem cleanup_files_post (s : S) (f : Nat)
    (hf : f ∈ (cleanup s).ctx.temp_files) : f ∉ (cleanup s).fs.files := by
  rw [cleanup_ctx, ← removeDir_ctx s] at hf
  unfold cleanup
  exact foldl_removeFile_all _ _ f hf

/-- C3: whatever the stages do and however the run ends — success or an
error raised at any stage — the state `execute` hands back to the caller
has passed through `cleanup` (the source's `finally:`), so the scoped
temp directory, if one is recorded, no longer exists, and no tracked
temp file exists. -/
theorem claim3_cleanup_guarantee (step : StepFun) (commands : List Cmd) (s : S) :
    (∀ d, (execute step commands s).2.ctx.temp_dir = some d →
      d ∉ (execute step commands s).2.fs.dirs) ∧
    (∀ f ∈ (execute step commands s).2.ctx.temp_files,
      f ∉ (execute step commands s).2.fs.files) :=
  ⟨fun d hd => cleanup_dir_post _ d hd, fun f hf => cleanup_files_post _ f hf⟩

/-- A five-stage run whose third stage raises, for the C3 witness: the
first stage creates the scoped temp directory (as `Save` would), the
third raises, the rest pass the stream through. -/
def stepRaisingAtThree : StepFun := fun _ cur s =>
  if s.ctx.current_step = 1 then
    let p := get_temp_dir s
    (.ok ⟨.one 1, .single⟩, p.2)
  else if s.ctx.current_step = 3 then
    (.error (.valueError "第三步失败"), s)
  else
    match cur with
    | some st => (.ok st, s)
    | none => (.ok ⟨.one 1, .single⟩, s)

/-- The five parsed stages used by the C3 witness. -/
def fiveStages : List Cmd :=
  [⟨"Load", .load, []⟩, ⟨"PNG", .png, []⟩, ⟨"PNG", .png, []⟩,
   ⟨"PNG", .png, []⟩, ⟨"Save", .save, []⟩]

/-- Witness for C3: in the concrete five-stage run that raises at the
third stage, the run errors, the temp directory id 0 was created and
recorded, and after `execute` returns it is gone from the filesystem. -/
theorem claim3_witness :
    (execute stepRaisingAtThree fiveStages ⟨{}, {}, []⟩).1 =
      .error (.valueError "第三步失败") ∧
    (execute stepRaisingAtThree fiveStages ⟨{}, {}, []⟩).2.ctx.temp_dir = some 0 ∧
    0 ∉ (execute stepRaisingAtThree fiveStages ⟨{}, {}, []⟩).2.fs.dirs :=
  ⟨by decide, by decide,
   (claim3_cleanup_guarantee stepRaisingAtThree fiveStages ⟨{}, {}, []⟩).1 0
     (by decide)⟩

/-! ### Claim C4: pipeline validation -/

/-- C4: validation fails with the PipelineStructureError messages when
the stage list is empty, when the first stage lacks Generator capability,
or when any later stage has it; and whenever parsing/validation fails,
`parse_and_execute` returns the error with the state untouched — no stage
ran, whatever the stage implementations are. -/
theorem claim4_validation :
    (validate_pipeline [] = .error (.structureError "管道不能为空")) ∧
    (∀ (c : Cmd) (cs : List Cmd), isGeneratorK c.kind = false →
      validate_pipeline (c :: cs) =
        .error (.structureError "管道的第一个命令必须是生成器（如Load）")) ∧
    (∀ (c : Cmd) (cs : List Cmd), cs.any (fun x => isGeneratorK x.kind) = true →
      ∃ m, validate_pipeline (c :: cs) = .error (.structureError m)) ∧
    (∀ (text : String) (step : StepFun) (s : S) (e : PErr),
      parsePipeline text = .error e →
      parse_and_execute step text s = (.error e, s)) := by
  refine ⟨rfl, ?_, ?_, ?_⟩
  · intro c cs h
    simp [validate_pipeline, h]
  · intro c cs h
    cases hg : isGeneratorK c.kind
    · exact ⟨"管道的第一个命令必须是生成器（如Load）", by simp [validate_pipeline, hg]⟩
    · exact ⟨"生成器命令只能作为管道的第一个命令", by simp [validate_pipeline, hg, h]⟩
  · intro text step s e h
    simp [parse_and_execute, h]

/-- Witness for C4: the one-stage pipeline `"PNG"` (first stage without
Generator capability) fails validation with the fixed structure error,
and `parse_and_execute` under the real command implementations returns
that error with the initial state unchanged. -/
theorem claim4_witness :
    isGeneratorK (Cmd.mk "PNG" .png []).kind = false ∧
    validate_pipeline [⟨"PNG", .png, []⟩] =
      .error (.structureError "管道的第一个命令必须是生成器（如Load）") ∧
    parse_and_execute commandStep "PNG" ⟨{}, {}, []⟩ =
      (.error (.structureError "管道的第一个命令必须是生成器（如Load）"), ⟨{}, {}, []⟩) :=
  ⟨by decide,
   claim4_validation.2.1 ⟨"PNG", .png, []⟩ [] (by decide),
   claim4_validation.2.2.2 "PNG" commandStep ⟨{}, {}, []⟩ _ (by decide)⟩

/-! ### Claim C5: state guards run before stage bodies -/

/-- C5: a stage fed a Stream in a state it does not accept raises the
StateError as its very first action: the returned state — including the
Document-capability call trace and the filesystem — is exactly the input
state, so no capability call and no side effect happened.  This covers
the Multi-only Aggregator (`Concat`) fed a Single stream, the
Single-only Selector (`Select`) fed a Multi stream, and the Generator
(`Load`) fed any stream at all. -/
theorem claim5_state_guard (params : List (String × Value)) (inp : Stream) (s : S) :
    (inp.state = .single →
      concatExecute inp s =
        (.error (.stateError "Concat命令只能应用于MultiStream"), s)) ∧
    (inp.state = .multi →
      selectExecute params inp s =
        (.error (.stateError "Select命令只能应用于SingleStream"), s)) ∧
    (loadExecute params (some inp) s =
      (.error (.valueError "Load命令只能作为管道的第一个命令"), s)) := by
  refine ⟨?_, ?_, rfl⟩
  · intro h
    have : inp.state ≠ .multi := by rw [h]; decide
    simp [concatExecute, this]
  · intro h
    have : inp.state ≠ .single := by rw [h]; decide
    simp [selectExecute, this]

/-- Witness for C5 at concrete streams and the empty trace: the errors
are raised and the state (trace included) is returned untouched. -/
theorem claim5_witness :
    concatExecute ⟨.one 4, .single⟩ ⟨{}, {}, []⟩ =
      (.error (.stateError "Concat命令只能应用于MultiStream"), ⟨{}, {}, []⟩) ∧
    selectExecute [] ⟨.many [1, 1], .multi⟩ ⟨{}, {}, []⟩ =
      (.error (.stateError "Select命令只能应用于SingleStream"), ⟨{}, {}, []⟩) :=
  ⟨(claim5_state_guard [] ⟨.one 4, .single⟩ ⟨{}, {}, []⟩).1 (by decide),
   (claim5_state_guard [] ⟨.many [1, 1], .multi⟩ ⟨{}, {}, []⟩).2.1 (by decide)⟩

/-! ### Claim C7: stage-shape errors -/

/-- The claim's stage shape `identifier` followed optionally by a braced
parameter block and nothing else. -/
def stageShapeOK (s : String) : Bool :=
  let l := (myTrim s).data
  let w := l.takeWhile isWordChar
  if w.isEmpty then false
  else
    let rest := l.drop w.length
    if rest.isEmpty then true
    else if rest.head? = some lbrace then
      match rest.tail.getLast? with
      | some c => c = rbrace && rest.tail.dropLast.all (fun x => x ≠ rbrace)
      | none => false
    else false

theorem rxCommandMatch_none (s : String) :
    rxCommandMatch s = none ↔ s.data.takeWhile isWordChar = [] := by
  unfold rxCommandMatch
  by_cases hw : (s.data.takeWhile isWordChar).isEmpty
  · simp only [hw, if_true]
    simp [List.isEmpty_iff.mp hw]
  · simp only [hw, Bool.false_eq_true, if_false]
    constructor
    · intro h
      exfalso
      revert h
      split
      · split <;> (intro h; cases h)
      · intro h; cases h
    · intro h
      exact absurd (List.isEmpty_iff.mpr h) (by simpa using hw)

theorem registryLookup_error (n : String) (e : PErr)
    (h : registryLookup n = .error e) :
    e = .unknownCommand ("未知命令: " ++ n) := by
  unfold registryLookup at h
  split_ifs at h
  cases h
  rfl

theorem parse_parameters_aux_error (pairs : List String)
    (acc : List (String × Value)) (e : PErr)
    (h : parse_parameters_aux pairs acc = .error e) :
    ∃ m, e = .paramSyntaxError m := by
  induction pairs generalizing acc with
  | nil => exact Except.noConfusion h
  | cons p rest ih =>
    unfold parse_parameters_aux at h
    by_cases hc : containsSub p ":" = true
    · rw [if_pos hc] at h
      exact ih _ h
    · rw [if_neg hc] at h
      injection h with h2
      exact ⟨_, h2.symm⟩

theorem parse_parameters_error (p : String) (e : PErr)
    (h : parse_parameters p = .error e) : ∃ m, e = .paramSyntaxError m := by
  unfold parse_parameters at h
  by_cases hp : p = ""
  · rw [if_pos hp] at h; exact Except.noConfusion h
  · rw [if_neg hp] at h
    exact parse_parameters_aux_error _ _ _ h

/-- C7 counterexample: the stage substring `"Load junk"` does not have
the shape `identifier` + optional braced block + nothing else, yet
`_parse_command` succeeds (the regex `re.match` anchors only at the
start), parsing it as a bare `Load` stage instead of raising a
ParseError. -/
theorem claim7_counterexample :
    stageShapeOK "Load junk" = false ∧
    parse_command "Load junk" = .ok ⟨"Load", .load, []⟩ :=
  ⟨by decide, by decide⟩

/-- C7 amended: `_parse_command` raises its invalid-format ParseError
exactly when the trimmed stage substring does not begin with a word
character (so the identifier prefix is empty); any text after the
identifier (and optional braced block) is ignored, not rejected. -/
theorem claim7_amended (cmdStr : String) :
    (∃ m, parse_command cmdStr = .error (.parseError m)) ↔
      (myTrim cmdStr).data.takeWhile isWordChar = [] := by
  constructor
  · rintro ⟨m, hm⟩
    by_contra hne
    rcases hopt : rxCommandMatch (myTrim cmdStr) with _ | ⟨name, po⟩
    · exact hne ((rxCommandMatch_none _).mp hopt)
    · simp only [parse_command, hopt] at hm
      cases hreg : registryLookup name with
      | error e =>
        rw [hreg] at hm
        simp only [bind, Except.bind] at hm
        injection hm with h2
        rw [registryLookup_error name e hreg] at h2
        cases h2
      | ok k =>
        rw [hreg] at hm
        simp only [bind, Except.bind] at hm
        cases po with
        | none => simp [pure, Except.pure] at hm
        | some pstr =>
          by_cases hps : pstr = ""
          · simp [hps, pure, Except.pure] at hm
          · simp only [hps, if_false] at hm
            cases hpp : parse_parameters pstr with
            | ok ps => rw [hpp] at hm; simp [bind, Except.bind] at hm
            | error e2 =>
              rw [hpp] at hm
              simp only [bind, Except.bind] at hm
              injection hm with h2
              rcases parse_parameters_error pstr e2 hpp with ⟨m2, rfl⟩
              cases h2
  · intro h
    refine ⟨"无效的命令格式: " ++ myTrim cmdStr, ?_⟩
    simp only [parse_command, (rxCommandMatch_none _).mpr h]

/-- Witness for C7 amended, at the stage substring `"%%"` (no leading
word character): parsing fails with the invalid-format ParseError. -/
theorem claim7_witness :
    (myTrim "%%").data.takeWhile isWordChar = [] ∧
    ∃ m, parse_command "%%" = .error (.parseError m) :=
  ⟨by decide, (claim7_amended "%%").mpr (by decide)⟩

/-! ### Claim C8: parameter-value classification -/

theorem startsWithSeq_single (c : Char) (xs : List Char) :
    startsWithSeq (c :: xs) [c] = true := by
  unfold startsWithSeq
  simp [startsWithSeq]

theorem mem_hasInfix_single (l : List Char) (c : Char) (h : c ∈ l) :
    hasInfixSeq l [c] = true := by
  induction l with
  | nil => cases h
  | cons x xs ih =>
    unfold hasInfixSeq
    rcases List.mem_cons.mp h with rfl | hm
    · rw [startsWithSeq_single]
      simp
    · rw [ih hm]
      simp

theorem matchesNumber_body_int (l : List Char) (hm : numBody l = true)
    (hd : ∀ x ∈ l, x ≠ '.') : allDigits l = true := by
  unfold numBody at hm
  by_cases hr : (l.dropWhile Char.isDigit).isEmpty
  · rw [if_pos hr] at hm
    have hall : ∀ x ∈ l, Char.isDigit x = true :=
      List.dropWhile_eq_nil_iff.mp (List.isEmpty_iff.mp hr)
    have hne : l ≠ [] := by
      intro he
      rw [he] at hm
      simp [List.takeWhile] at hm
    have hie : l.isEmpty = false := by
      cases l with
      | nil => exact absurd rfl hne
      | cons x xs => rfl
    unfold allDigits
    rw [Bool.and_eq_true]
    exact ⟨by rw [hie]; rfl, by rw [List.all_eq_true]; exact hall⟩
  · rw [if_neg hr] at hm
    by_cases hh : (l.dropWhile Char.isDigit).head? = some '.'
    · exfalso
      have hmem : ('.' : Char) ∈ l.dropWhile Char.isDigit :=
        List.mem_of_mem_head? (Option.mem_def.mpr hh)
      exact hd _ ((List.dropWhile_sublist Char.isDigit (l := l)).subset hmem) rfl
    · rw [if_neg hh] at hm
      exact absurd hm (by simp)

theorem matchesNumber_noDot_int (t : String) (hm : matchesNumber t = true)
    (hd : containsSub t "." = false) : ∃ n : Int, pyInt t = .ok n := by
  have hdot : ∀ x ∈ t.data, x ≠ '.' := by
    intro x hx he
    subst he
    have hc : containsSub t "." = true := by
      unfold containsSub
      have hdata : ".".data = ['.'] := rfl
      rw [hdata]
      exact mem_hasInfix_single _ _ hx
    rw [hc] at hd
    cases hd
  unfold matchesNumber at hm
  by_cases hneg : t.data.head? = some '-'
  · rw [if_pos hneg] at hm
    have hall : allDigits t.data.tail = true := by
      refine matchesNumber_body_int _ hm ?_
      intro x hx
      exact hdot x ((List.tail_sublist t.data).subset hx)
    refine ⟨-(digitsVal t.data.tail : Int), ?_⟩
    unfold pyInt
    rw [if_pos hneg, if_pos hall]
  · rw [if_neg hneg] at hm
    have hall : allDigits t.data = true := matchesNumber_body_int _ hm hdot
    refine ⟨(digitsVal t.data : Int), ?_⟩
    rw [pyInt_digits t hall]

theorem floatBuild_shape (neg : Bool) (l : List Char) :
    ∃ num den, floatBuild neg l = .floatV num den := by
  unfold floatBuild
  split
  · exact ⟨_, _, rfl⟩
  · exact ⟨_, _, rfl⟩

theorem floatOfToken_shape (t : String) :
    ∃ num den, floatOfToken t = .floatV num den := by
  unfold floatOfToken
  split
  · exact floatBuild_shape true t.data.tail
  · exact floatBuild_shape false t.data

/-- C8: classification of parameter-value tokens, in the order the source
tests them: a token fully wrapped in matching single or double quotes is a
String with the quotes stripped and no escape processing; otherwise a
case-insensitive boolean token is a Bool; otherwise a token matching
`-?digits(.digits)?` in its entirety becomes an Integer (no dot, via a
successful int conversion) or a Float (with a dot); any other token is
kept as a bare string. -/
theorem claim8_value_classification (t : String) (htrim : myTrim t = t) :
    (isWrappedTok t = true → parse_value t = .str (stripQuotes t)) ∧
    (isWrappedTok t = false → myToLower t = "true" → parse_value t = .boolV true) ∧
    (isWrappedTok t = false → myToLower t = "false" → parse_value t = .boolV false) ∧
    (isWrappedTok t = false → myToLower t ≠ "true" → myToLower t ≠ "false" →
      matchesNumber t = true → containsSub t "." = false →
      ∃ n : Int, pyInt t = .ok n ∧ parse_value t = .intV n) ∧
    (isWrappedTok t = false → myToLower t ≠ "true" → myToLower t ≠ "false" →
      matchesNumber t = true → containsSub t "." = true →
      ∃ num den, parse_value t = .floatV num den) ∧
    (isWrappedTok t = false → myToLower t ≠ "true" → myToLower t ≠ "false" →
      matchesNumber t = false → parse_value t = .str t) := by
  refine ⟨?_, ?_, ?_, ?_, ?_, ?_⟩
  · intro h1
    simp [parse_value, htrim, h1]
  · intro h1 h2
    simp [parse_value, htrim, h1, h2]
  · intro h1 h2
    simp [parse_value, htrim, h1, h2]
  · intro h1 h2 h3 h4 h5
    obtain ⟨n, hn⟩ := matchesNumber_noDot_int t h4 h5
    exact ⟨n, hn, by simp [parse_value, htrim, h1, h2, h3, h4, h5, hn]⟩
  · intro h1 h2 h3 h4 h5
    obtain ⟨num, den, hfl⟩ := floatOfToken_shape t
    exact ⟨num, den, by simp [parse_value, htrim, h1, h2, h3, h4, h5, hfl]⟩
  · intro h1 h2 h3 h4
    simp [parse_value, htrim, h1, h2, h3, h4]

/-- Witness for C8 at the tokens of the spec's §8 example: an entirely
quoted token, boolean tokens, numeric tokens (integer and float) and a
bare word, each classified as the claim states. -/
theorem claim8_witness :
    (myTrim "\"value\"" = "\"value\"" ∧ parse_value "\"value\"" = .str "value") ∧
    (myTrim "true" = "true" ∧ parse_value "true" = .boolV true) ∧
    (myTrim "300" = "300" ∧ ∃ n : Int, pyInt "300" = .ok n ∧ parse_value "300" = .intV n) ∧
    (myTrim "1.5" = "1.5" ∧ ∃ num den, parse_value "1.5" = .floatV num den) ∧
    (myTrim "hello" = "hello" ∧ parse_value "hello" = .str "hello") :=
  ⟨⟨by decide, (claim8_value_classification "\"value\"" (by decide)).1 (by decide)⟩,
   ⟨by decide, (claim8_value_classification "true" (by decide)).2.1 (by decide) (by decide)⟩,
   ⟨by decide, (claim8_value_classification "300" (by decide)).2.2.2.1
      (by decide) (by decide) (by decide) (by decide) (by decide)⟩,
   ⟨by decide, (claim8_value_classification "1.5" (by decide)).2.2.2.2.1
      (by decide) (by decide) (by decide) (by decide) (by decide)⟩,
   ⟨by decide, (claim8_value_classification "hello" (by decide)).2.2.2.2.2
      (by decide) (by decide) (by decide) (by decide)⟩⟩

/-! ### Claim C9: what surfaced errors carry -/

/-- C9 counterexample: the pipelines `"PNG"` and `"Concat"` fail at
offending stage index 0 with names `PNG` and `Concat`, yet both surface
the *same* fixed error value, whose message mentions neither the stage's
name nor its index — so the surfaced error does not carry the offending
stage's index and name. -/
theorem claim9_counterexample :
    parsePipeline "PNG" =
      .error (.structureError "管道的第一个命令必须是生成器（如Load）") ∧
    parsePipeline "Concat" =
      .error (.structureError "管道的第一个命令必须是生成器（如Load）") ∧
    containsSub "管道的第一个命令必须是生成器（如Load）" "PNG" = false ∧
    containsSub "管道的第一个命令必须是生成器（如Load）" "Concat" = false ∧
    containsSub "管道的第一个命令必须是生成器（如Load）" "0" = false :=
  ⟨by decide, by decide, by decide, by decide, by decide⟩

/-- C9 amended: the registry-lookup error carries the offending stage's
name but no index, and the pipeline-structure validation errors are fixed
messages independent of the offending stage list, carrying neither the
stage's name nor its index; execution errors propagate the stage's own
exception unmodified (step index and name appear only in the error log,
not in the raised error). -/
theorem claim9_amended :
    (∀ (n : String) (e : PErr), registryLookup n = .error e →
      e = .unknownCommand ("未知命令: " ++ n)) ∧
    (∀ (c : Cmd) (cs : List Cmd), isGeneratorK c.kind = false →
      validate_pipeline (c :: cs) =
        .error (.structureError "管道的第一个命令必须是生成器（如Load）")) ∧
    (∀ (c : Cmd) (cs : List Cmd), isGeneratorK c.kind = true →
      cs.any (fun x => isGeneratorK x.kind) = true →
      validate_pipeline (c :: cs) =
        .error (.structureError "生成器命令只能作为管道的第一个命令")) := by
  refine ⟨registryLookup_error, ?_, ?_⟩
  · intro c cs h
    simp [validate_pipeline, h]
  · intro c cs h1 h2
    simp [validate_pipeline, h1, h2]

/-- Witness for C9 amended: an unknown stage name surfaces an error
carrying that name; a pipeline with a misplaced Generator surfaces the
fixed structure message. -/
theorem claim9_witness :
    registryLookup "Foo" = .error (.unknownCommand "未知命令: Foo") ∧
    validate_pipeline [⟨"Load", .load, []⟩, ⟨"Load", .load, []⟩] =
      .error (.structureError "生成器命令只能作为管道的第一个命令") :=
  ⟨by decide,
   claim9_amended.2.2 ⟨"Load", .load, []⟩ [⟨"Load", .load, []⟩]
     (by decide) (by decide)⟩

end PDFL
